import Mathlib

/-!
Verification of `pyresample/utils.py` (parameter-inference engine, catalog
parsers, grid-definition factory glue).

Modelling conventions (shallow embedding):
* Python strings are modelled as `List Char` (`PyStr`); Python string methods
  (`in`, `replace`, `strip`, `split`) are translated to explicit list
  recursions below.
* Python floats are modelled as `ℚ`; any float arithmetic rounding is out of
  scope of the claims checked here.
* Fallible code returns `Except PyErr _`; each `PyErr` constructor corresponds
  to one `raise` site of the source.
* External collaborators (the `pyproj.Proj` transform, the `AreaDefinition` /
  `DynamicAreaDefinition` constructors, the `_create_area` block converter's
  downstream) are abstracted as parameters/records; the code under
  verification only invokes them.
-/

attribute [local semireducible] Rat.mul Rat.add Rat.sub Rat.inv Rat.ofScientific

deriving instance DecidableEq for Except

namespace PyreUtils

/-- Python strings, modelled as lists of characters. -/
abbrev PyStr := List Char

/-- Shorthand to turn a Lean string literal into a `PyStr`. -/
def pstr (s : String) : PyStr := s.toList

/-- `pyIsPre pat s` is true when `pat` is a prefix of `s`
(Python `s.startswith(pat)`). -/
def pyIsPre : PyStr → PyStr → Bool
  | [], _ => true
  | _ :: _, [] => false
  | p :: ps, c :: cs => p = c && pyIsPre ps cs

/-- Python's substring test `pat in s`. -/
def pyContains (s pat : PyStr) : Bool :=
  match s with
  | [] => pat.isEmpty
  | _ :: rest => pyIsPre pat s || pyContains rest pat

/-- Worker for `pyReplace`, structurally recursive on a fuel argument so that
it evaluates inside the kernel; every step consumes at least one character, so
fuel `s.length` is enough. -/
def pyReplaceGo (pat rep : PyStr) : ℕ → PyStr → PyStr
  | _, [] => []
  | 0, s => s
  | fuel + 1, c :: rest =>
    if !pat.isEmpty && pyIsPre pat (c :: rest) then
      rep ++ pyReplaceGo pat rep fuel (List.drop (pat.length - 1) rest)
    else
      c :: pyReplaceGo pat rep fuel rest

/-- Python's `str.replace(pat, rep)`: replace all non-overlapping occurrences
of `pat`, scanning left to right.  (The source only calls it with non-empty
patterns; an empty pattern is returned unchanged here.) -/
def pyReplace (pat rep s : PyStr) : PyStr :=
  pyReplaceGo pat rep s.length s

/-- Whitespace as recognised by Python's `str.strip()` (the subset relevant to
area files). -/
def pySpace (c : Char) : Bool :=
  c = ' ' || c = '\t' || c = '\n' || c = '\x0d'

/-- Python's `str.strip()`. -/
def pyStrip (s : PyStr) : PyStr :=
  ((s.dropWhile pySpace).reverse.dropWhile pySpace).reverse

/-- Python's `str.split(sep, 1)` for a one-character separator: split on the
first occurrence only. -/
def pySplitFirst (sep : Char) (s : PyStr) : List PyStr :=
  let hd := s.takeWhile (· ≠ sep)
  let tl := s.dropWhile (· ≠ sep)
  match tl with
  | [] => [hd]
  | _ :: rest => [hd, rest]

/-- Numeric value of a digit string. -/
def digitsVal (ds : PyStr) : ℕ :=
  ds.foldl (fun a c => 10 * a + (c.toNat - 48)) 0

/-- Exponent part of a decimal literal: `[+|-]digits`.  Multiplies the
mantissa by the corresponding power of ten. -/
def parseExpPart (m : ℚ) (s : PyStr) : Option ℚ :=
  let sgnRest : ℤ × PyStr :=
    match s with
    | '+' :: r => (1, r)
    | '-' :: r => (-1, r)
    | _ => (1, s)
  let ds := sgnRest.2.takeWhile Char.isDigit
  if ds.isEmpty || !(sgnRest.2.dropWhile Char.isDigit).isEmpty then none
  else some (m * (10 : ℚ) ^ (sgnRest.1 * (digitsVal ds : ℤ)))

/-- Modelled from Python's built-in `float(str)` on finite decimal literals:
optional surrounding whitespace, optional sign, `digits[.digits]` or
`.digits`, optional `e`/`E` exponent.  (`inf`/`nan` spellings and digit
underscores are not modelled; no value in the claims depends on them.) -/
def pyFloat? (s0 : PyStr) : Option ℚ :=
  let s1 := pyStrip s0
  let sgnRest : ℚ × PyStr :=
    match s1 with
    | '+' :: r => (1, r)
    | '-' :: r => (-1, r)
    | _ => (1, s1)
  let sgn := sgnRest.1
  let s := sgnRest.2
  let ip := s.takeWhile Char.isDigit
  let rest := s.dropWhile Char.isDigit
  match rest with
  | [] => if ip.isEmpty then none else some (sgn * digitsVal ip)
  | '.' :: r =>
    let fp := r.takeWhile Char.isDigit
    let rest2 := r.dropWhile Char.isDigit
    if ip.isEmpty && fp.isEmpty then none
    else
      let mant : ℚ := (digitsVal ip : ℚ) + (digitsVal fp : ℚ) / (10 : ℚ) ^ fp.length
      match rest2 with
      | [] => some (sgn * mant)
      | e :: r2 => if e = 'e' || e = 'E' then parseExpPart (sgn * mant) r2 else none
  | e :: r2 =>
    if (e = 'e' || e = 'E') && !ip.isEmpty then parseExpPart (sgn * (digitsVal ip : ℚ)) r2
    else none

/-- The errors raised by the source, one constructor per `raise` site.
All of them are `ValueError`s except `areaNotFound` (a `KeyError` subclass),
`projError` (a `pyproj` transform error under `errcheck=True`) and
`zeroDivision` (Python `ZeroDivisionError`). -/
inductive PyErr where
  | notListLike (name : PyStr)
  | notNumeric (name : PyStr)
  | wrongLength (name : PyStr) (expected actual : ℕ)
  | invalidUnits (name units : PyStr)
  | latlongMeters (name : PyStr)
  | missingCenter
  | conflictingParams (name : PyStr) (input_list : List PyStr)
  | ambiguousDefinition (var arg : PyStr)
  | insufficientParams
  | areaNotFound (msg : PyStr)
  | badProjection
  | projError
  | zeroDivision
  | internalShape
deriving DecidableEq

/-! ### PROJ.4 string / dict conversion (`convert_proj_floats`,
`proj4_str_to_dict`, `proj4_dict_to_str`) -/

/-- A value of a PROJ.4 parameter mapping: Python `True` for key-only
parameters, a float, or a string. -/
inductive PVal where
  | pbool
  | pnum (q : ℚ)
  | pstrv (s : PyStr)
deriving DecidableEq

/-- Python `dict` assignment `d[k] = v`: overwrite in place if the key exists
(keeping its position), else append. -/
def dictInsert (d : List (PyStr × PVal)) (k : PyStr) (v : PVal) : List (PyStr × PVal) :=
  if d.any (fun p => p.1 = k) then d.map (fun p => if p.1 = k then (k, v) else p)
  else d ++ [(k, v)]

/-- Python `dict` lookup `d.get(k)`. -/
def dictLookup (d : List (PyStr × PVal)) (k : PyStr) : Option PVal :=
  (d.find? (fun p => p.1 = k)).map (·.2)

/-- `convert_proj_floats` (utils.py:424-437) on the string pairs produced by
`proj4_str_to_dict`: a 1-element pair becomes `True`; otherwise the value is
parsed as a float when possible, else kept as a string.  (The `x[1] is True`
test in the source is vacuous on this path, where every `x[1]` is a string;
it only matters for the `ConfigObj` path, which is not modelled.)
This is the loop body handling one pair. -/
def convert_proj_floats_step (d : List (PyStr × PVal)) (x : List PyStr) :
    List (PyStr × PVal) :=
  match x with
  | [k] => dictInsert d k .pbool
  | k :: v :: _ =>
    dictInsert d k (match pyFloat? v with | some q => .pnum q | none => .pstrv v)
  | [] => d

/-- The accumulation loop of `convert_proj_floats`. -/
def convert_proj_floats (pairs : List (List PyStr)) : List (PyStr × PVal) :=
  pairs.foldl convert_proj_floats_step []

/-- `proj4_str_to_dict` (utils.py:451-457): strip every `+`, split on single
spaces, split each token at the first `=`, convert floats. -/
def proj4_str_to_dict (proj4_str : PyStr) : List (PyStr × PVal) :=
  convert_proj_floats (((pyReplace (pstr "+") [] proj4_str).splitOn ' ').map (pySplitFirst '='))

/-- Rendering of a parameter value by Python's `'{}'.format(val)`:
`True` prints as `True`, floats print through the external float formatter
`fmtFloat` (Python's `str(float)`), strings print as themselves. -/
def pvalFmt (fmtFloat : ℚ → PyStr) : PVal → PyStr
  | .pbool => pstr "True"
  | .pnum q => fmtFloat q
  | .pstrv s => s

/-- One iteration of the `proj4_dict_to_str` loop (utils.py:466-472):
prefix the key with `+` unless already prefixed; `+no_defs`/`+no_off`/
`+no_rot` are emitted bare, everything else as `key=value`. -/
def proj4_dict_to_str_param (fmtFloat : ℚ → PyStr) (kv : PyStr × PVal) : PyStr :=
  let key := if pyIsPre (pstr "+") kv.1 then kv.1 else '+' :: kv.1
  if key = pstr "+no_defs" || key = pstr "+no_off" || key = pstr "+no_rot" then key
  else key ++ '=' :: pvalFmt fmtFloat kv.2

/-- `proj4_dict_to_str` (utils.py:460-473) with the default `sort=False`:
render each parameter and join with single spaces. -/
def proj4_dict_to_str (fmtFloat : ℚ → PyStr) (proj4_dict : List (PyStr × PVal)) : PyStr :=
  List.intercalate [' '] (proj4_dict.map (proj4_dict_to_str_param fmtFloat))

/-! ### Variable validator (`_validate_variable`) -/

/-- One component of `np.allclose` with its default tolerances
(`rtol=1e-5`, `atol=1e-8`): `|a - b| ≤ atol + rtol * |b|`. -/
def npIsClose (a b : ℚ) : Bool :=
  |a - b| ≤ 1 / 100000000 + (1 / 100000) * |b|

/-- 2-component vectors (tuples of Python floats). -/
abbrev Vec2 := ℚ × ℚ

/-- 4-component extents `(lower_left_x, lower_left_y, upper_right_x,
upper_right_y)`; fields are named by their Python tuple index. -/
structure Vec4 where
  x0 : ℚ
  x1 : ℚ
  x2 : ℚ
  x3 : ℚ
deriving DecidableEq

/-- `np.allclose` at each of the two tuple arities the source compares. -/
class NpAllClose (α : Type) where
  allclose : α → α → Bool

instance : NpAllClose Vec2 :=
  ⟨fun a b => npIsClose a.1 b.1 && npIsClose a.2 b.2⟩

instance : NpAllClose Vec4 :=
  ⟨fun a b => npIsClose a.x0 b.x0 && npIsClose a.x1 b.x1 && npIsClose a.x2 b.x2 &&
    npIsClose a.x3 b.x3⟩

/-- `_validate_variable` (utils.py:817-823): if a caller-supplied value exists
and is not `np.allclose` to the derived value, raise the conflicting-data
`ValueError`; otherwise return the derived value. -/
def _validate_variable [NpAllClose α] (var : Option α) (new_var : α) (var_name : PyStr)
    (input_list : List PyStr) : Except PyErr α :=
  match var with
  | some v =>
    if !NpAllClose.allclose v new_var then .error (.conflictingParams var_name input_list)
    else .ok new_var
  | none => .ok new_var

/-! ### Unit converter (`_sign`, `_round_poles`, `_convert_units`) -/

/-- The projection capability (`pyproj.Proj`), abstracted: a coordinate
transform `tf (x, y) radians inverse`, a success predicate `ok` for the same
call (with `errcheck=True` a failing transform raises; without it the raw
`tf` value is returned), and the `is_latlong` predicate. -/
structure Projection where
  is_latlong : Bool
  tf : Vec2 → (radians : Bool) → (inverse : Bool) → Vec2
  ok : Vec2 → (radians : Bool) → (inverse : Bool) → Bool

/-- A projection call with `errcheck=True`. -/
def projE (p : Projection) (v : Vec2) (radians inverse : Bool) : Except PyErr Vec2 :=
  if p.ok v radians inverse then .ok (p.tf v radians inverse) else .error .projError

/-- `_sign` (utils.py:736-740): the sign of a number, with `_sign 0 = 1`. -/
def _sign (num : ℚ) : ℚ :=
  if num < 0 then -1 else 1

/-- The exact value of the double `math.pi` (`884279719003555 / 2^48`). -/
def mathPi : ℚ := 884279719003555 / 281474976710656

/-- `_round_poles` (utils.py:743-758): snap a center that is within `1e-4`
(in degrees; scaled for radians, transformed for meters) of a pole onto the
exact pole. -/
def _round_poles (center : Vec2) (units : PyStr) (p : Projection) : Except PyErr Vec2 := do
  let error : ℚ := 1 / 10000
  let c1 ←
    if pyContains units (pstr "m") then do
      let c ← projE p center false true
      let c := if |(|c.2|) - 90| < error then (c.1, _sign c.2 * 90) else c
      projE p c false false
    else pure center
  let c2 :=
    if pyContains units (pstr "deg") || pyContains units (pstr "°") then
      if |(|c1.2|) - 90| < error then (c1.1, _sign c1.2 * 90) else c1
    else c1
  let c3 :=
    if pyContains units (pstr "rad") then
      if |(|c2.2|) - mathPi / 2| < error * mathPi / 180 then (c2.1, _sign c2.2 * (mathPi / 2))
      else c2
    else c2
  return c3

/-- A 2-vector argument of `_convert_units`: a plain tuple, or an
`xarray.DataArray` carrying its own `units` attribute. -/
inductive UVar where
  | plain (v : Vec2)
  | withUnits (v : Vec2) (units : PyStr)
deriving DecidableEq

/-- `_convert_units` (utils.py:761-814).  Converts a 2-vector from angular
units to projection meters (or the inverse).  `radius`/`resolution` are
interpreted as distances (requiring a center, with a special case when the
center sits on a pole) and always returned with non-negative components. -/
def _convert_units (p : Projection) (var : Option UVar) (name : PyStr) (units0 : PyStr)
    (inverse : Bool) (center : Option Vec2) : Except PyErr (Option Vec2) := do
  match var with
  | none => return none
  | some uv =>
    let units := match uv with | .plain _ => units0 | .withUnits _ u => u
    let v0 := match uv with | .plain v => v | .withUnits v _ => v
    if p.is_latlong && pyContains units (pstr "m") then throw (.latlongMeters name)
    let viable :=
      [pstr "°", pstr "deg", pstr "degrees", pstr "rad", pstr "radians", pstr "m",
        pstr "meters"].any (fun u => units = u)
    if !viable then throw (.invalidUnits name units)
    let v1 ← if name = pstr "center" then _round_poles v0 units p else pure v0
    let radians := pyContains units (pstr "rad")
    let v2 ←
      if (pyContains units (pstr "°") || pyContains units (pstr "deg") ||
          pyContains units (pstr "rad")) && !inverse then
        if name = pstr "radius" || name = pstr "resolution" then
          match center with
          | none => throw .missingCenter
          | some c => do
            let caa ← projE p c radians true
            if |(|(p.tf c false true).2|) - 90| < 1 / 10000000000 then do
              let a ← projE p (0, caa.2 - _sign caa.2 * |v1.1|) radians false
              let b ← projE p (0, caa.2 - _sign caa.2 * |v1.2|) radians false
              pure (|a.2 + c.2|, |b.2 + c.2|)
            else do
              let a ← projE p (caa.1 - v1.1, caa.2) radians false
              let b ← projE p (caa.1, caa.2 - v1.2) radians false
              pure (|c.1 - a.1|, |c.2 - b.2|)
        else projE p v1 radians false
      else if inverse && pyContains units (pstr "m") then
        projE p v1 false true
      else pure v1
    let v3 := if name = pstr "radius" || name = pstr "resolution" then (|v2.1|, |v2.2|) else v2
    return some v3

/-! ### Shape normalizer (`_format_list`, `_verify_list`) -/

/-- A Python scalar reaching the normalizer: a number or a string. -/
inductive PyScalar where
  | num (q : ℚ)
  | str (s : PyStr)
deriving DecidableEq

/-- The data held by a normalizer argument: a scalar or a flat list. -/
inductive PyData where
  | scalar (x : PyScalar)
  | list (xs : List PyScalar)
deriving DecidableEq

/-- An argument of `_verify_list`: plain data, or an `xarray.DataArray`
wrapping it (whose `attrs` may or may not carry a `units` tag). -/
inductive PyVal where
  | plain (d : PyData)
  | dataArray (d : PyData) (units : Option PyStr)
deriving DecidableEq

/-- The two exception kinds `_verify_list` catches from `_format_list`:
`TypeError` (iterating a non-iterable) and `ValueError` (`float()` on a
non-numeric string). -/
inductive FmtErr where
  | typeErr
  | valueErr
deriving DecidableEq

/-- Python's built-in `float(x)` on a scalar: numbers pass through, strings
are parsed as decimal literals (`ValueError` when they do not parse). -/
def floatOfScalar : PyScalar → Except FmtErr ℚ
  | .num q => .ok q
  | .str s => match pyFloat? s with | some q => .ok q | none => .error .valueErr

/-- `_format_list` (utils.py:875-882): a scalar is broadcast to a pair for
`resolution`/`radius`; any other scalar raises `TypeError` when the tuple
comprehension iterates it; a list has each element converted by `float`. -/
def _format_list (var : PyData) (name : PyStr) : Except FmtErr (List ℚ) :=
  match var with
  | .scalar s =>
    if name = pstr "resolution" || name = pstr "radius" then do
      let q ← floatOfScalar s
      pure [q, q]
    else .error .typeErr
  | .list xs => xs.mapM floatOfScalar

/-- The normalized value produced by `_verify_list`: a float tuple, or a
`DataArray` of floats still carrying its `units` attribute. -/
inductive VerifiedVal where
  | plain (xs : List ℚ)
  | dataArray (xs : List ℚ) (units : PyStr)
deriving DecidableEq

/-- The float list inside a `VerifiedVal`. -/
def VerifiedVal.data : VerifiedVal → List ℚ
  | .plain xs => xs
  | .dataArray xs _ => xs

/-- `_verify_list` (utils.py:885-907): `None` passes through; the value is
normalized by `_format_list` (kept as a `DataArray` when it has a `units`
attribute and the name is not `shape`); `TypeError` becomes the
not-list-like `ValueError`, `ValueError` the not-numeric one; finally the
length must match. -/
def _verify_list (name : PyStr) (var : Option PyVal) (length : ℕ) :
    Except PyErr (Option VerifiedVal) := do
  match var with
  | none => return none
  | some v =>
    let fmtRes : Except FmtErr VerifiedVal :=
      match v with
      | .dataArray d us =>
        match us with
        | some u =>
          if name ≠ pstr "shape" then (_format_list d name).map (fun xs => .dataArray xs u)
          else (_format_list d name).map .plain
        | none => (_format_list d name).map .plain
      | .plain d => (_format_list d name).map .plain
    match fmtRes with
    | .error .typeErr => throw (.notListLike name)
    | .error .valueErr => throw (.notNumeric name)
    | .ok out =>
      if out.data.length ≠ length then throw (.wrongLength name length out.data.length)
      return some out

/-! ### Parameter inference engine (`_get_converted_lists`,
`_extrapolate_information`) -/

/-- A 4-component `area_extent` argument before unit conversion: a plain
tuple or a `DataArray` with a `units` attribute (slicing a `DataArray`
preserves its `attrs`, so both halves inherit the tag). -/
inductive AExt where
  | plain (e : Vec4)
  | withUnits (e : Vec4) (units : PyStr)
deriving DecidableEq

/-- `_get_converted_lists` (utils.py:715-733): split `area_extent` into its
lower-left and upper-right halves, convert `center`, `top_left_extent` and
both halves to projection meters, and recombine. -/
def _get_converted_lists (p : Projection) (center top_left_extent : Option UVar)
    (area_extent : Option AExt) (units : PyStr) :
    Except PyErr (Option Vec2 × Option Vec2 × Option Vec4) := do
  let llur : Option UVar × Option UVar :=
    match area_extent with
    | none => (none, none)
    | some (.plain e) => (some (.plain (e.x0, e.x1)), some (.plain (e.x2, e.x3)))
    | some (.withUnits e u) =>
      (some (.withUnits (e.x0, e.x1) u), some (.withUnits (e.x2, e.x3) u))
  let c ← _convert_units p center (pstr "center") units false none
  let t ← _convert_units p top_left_extent (pstr "top_left_extent") units false none
  let ll ← _convert_units p llur.1 (pstr "area_extent") units false none
  let ur ← _convert_units p llur.2 (pstr "area_extent") units false none
  let ae : Option Vec4 :=
    match area_extent, ll, ur with
    | some _, some l, some r => some ⟨l.1, l.2, r.1, r.2⟩
    | _, _, _ => none
  return (c, t, ae)

/-- First block of `_extrapolate_information` (utils.py:831-849): derive
`center`, `radius` and `top_left_extent` from `area_extent` when present,
else `radius` from `top_left_extent`+`center`, else just convert `radius`
to meters.  Returns the updated `(center, radius, top_left_extent)`. -/
def _extrap_block1 (p : Projection) (units : PyStr) (area_extent : Option Vec4)
    (center : Option Vec2) (radius : Option UVar) (top_left_extent : Option Vec2) :
    Except PyErr (Option Vec2 × Option Vec2 × Option Vec2) := do
  match area_extent with
  | some ae => do
    let new_center : Vec2 := ((ae.x2 + ae.x0) / 2, (ae.x3 + ae.x1) / 2)
    let center ← _validate_variable center new_center (pstr "center") [pstr "area_extent"]
    let radius ← _convert_units p radius (pstr "radius") units false (some center)
    let new_radius : Vec2 := ((ae.x2 - ae.x0) / 2, (ae.x3 - ae.x1) / 2)
    let radius ← _validate_variable radius new_radius (pstr "radius") [pstr "area_extent"]
    let new_top_left_extent : Vec2 := (ae.x0, ae.x3)
    let top_left_extent ← _validate_variable top_left_extent new_top_left_extent
      (pstr "top_left_extent") [pstr "area_extent"]
    return (some center, some radius, some top_left_extent)
  | none =>
    match top_left_extent, center with
    | some t, some c => do
      let radius ← _convert_units p radius (pstr "radius") units false (some c)
      let new_radius : Vec2 := (c.1 - t.1, t.2 - c.2)
      let radius ← _validate_variable radius new_radius (pstr "radius")
        [pstr "top_left_extent", pstr "center"]
      return (some c, some radius, some t)
    | _, _ => do
      let radius ← _convert_units p radius (pstr "radius") units false center
      return (center, radius, top_left_extent)

/-- Second block of `_extrapolate_information` (utils.py:852-859): derive
`shape` from `radius`+`resolution` (note the axis swap: rows from the y
components, columns from the x components), else `radius` from
`resolution`+`shape`.  Python float division by zero raises
`ZeroDivisionError`, modelled explicitly since `ℚ` division is total.
Returns the updated `(radius, shape)`. -/
def _extrap_block2 (radius resolution shape : Option Vec2) :
    Except PyErr (Option Vec2 × Option Vec2) := do
  match radius, resolution with
  | some r, some s =>
    if s.2 = 0 || s.1 = 0 then throw .zeroDivision
    else do
      let new_shape : Vec2 := (2 * r.2 / s.2, 2 * r.1 / s.1)
      let shape ← _validate_variable shape new_shape (pstr "shape")
        [pstr "radius", pstr "resolution"]
      return (radius, some shape)
  | _, _ =>
    match resolution, shape with
    | some s, some sh => do
      let new_radius : Vec2 := (s.1 * sh.2 / 2, s.2 * sh.1 / 2)
      let radius ← _validate_variable radius new_radius (pstr "radius")
        [pstr "shape", pstr "resolution"]
      return (some radius, shape)
    | _, _ => return (radius, shape)

/-- Third block of `_extrapolate_information` (utils.py:862-871): derive
`area_extent` from `center`+`radius`, else from `top_left_extent`+`radius`.
Returns the updated `area_extent`. -/
def _extrap_block3 (center radius top_left_extent : Option Vec2)
    (area_extent : Option Vec4) : Except PyErr (Option Vec4) := do
  match center, radius with
  | some c, some r => do
    let new_area_extent : Vec4 := ⟨c.1 - r.1, c.2 - r.2, c.1 + r.1, c.2 + r.2⟩
    let ae ← _validate_variable area_extent new_area_extent (pstr "area_extent")
      [pstr "center", pstr "radius"]
    return some ae
  | _, _ =>
    match top_left_extent, radius with
    | some t, some r => do
      let new_area_extent : Vec4 := ⟨t.1, t.2 - 2 * r.2, t.1 + 2 * r.1, t.2⟩
      let ae ← _validate_variable area_extent new_area_extent (pstr "area_extent")
        [pstr "top_left_extent", pstr "radius"]
      return some ae
    | _, _ => return area_extent

/-- `_extrapolate_information` (utils.py:826-872): the three derivation
blocks in source order, with `resolution` converted to meters in between
(using the center resolved by the first block). -/
def _extrapolate_information (p : Projection) (units : PyStr) (area_extent : Option Vec4)
    (shape : Option Vec2) (center : Option Vec2) (radius resolution : Option UVar)
    (top_left_extent : Option Vec2) : Except PyErr (Option Vec4 × Option Vec2) := do
  let (center, radius, top_left_extent) ←
    _extrap_block1 p units area_extent center radius top_left_extent
  let resolution ← _convert_units p resolution (pstr "resolution") units false center
  let (radius, shape) ← _extrap_block2 radius resolution shape
  let area_extent ← _extrap_block3 center radius top_left_extent area_extent
  return (area_extent, shape)

/-! ### Grid definition factory (`_make_area`) and `from_params` glue -/

/-- Python's built-in `round` (banker's rounding: halves go to the even
neighbour). -/
def pyRound (q : ℚ) : ℤ :=
  let f := ⌊q⌋
  let r := q - f
  if r < 1 / 2 then f
  else if 1 / 2 < r then f + 1
  else if f % 2 = 0 then f else f + 1

/-- One axis of the shape finalization in `_make_area` (utils.py:680-689):
round to the nearest integer when within `0.01` of one, else round up
(with a non-fatal warning, not modelled). -/
def _shape_axis_to_int (x : ℚ) : ℤ :=
  if x - ⌊x⌋ < 1 / 100 || ⌈x⌉ - x < 1 / 100 then pyRound x else ⌈x⌉

/-- The keyword arguments of `from_params`/`_make_area` that the factory
decision reads (`rotation`, `optimize_projection`); the remaining kwargs are
passed through to the external constructors unchanged. -/
structure Kwargs where
  rotation : Option ℚ
  optimize_projection : Option Bool
deriving DecidableEq

/-- The argument record handed to the external `AreaDefinition` constructor. -/
structure StaticArea where
  area_id : PyStr
  description : PyStr
  proj_id : Option PyStr
  proj_dict : List (PyStr × PVal)
  width : ℤ
  height : ℤ
  area_extent : Vec4
  kwargs : Kwargs
deriving DecidableEq

/-- The argument record handed to the external `DynamicAreaDefinition`
constructor. -/
structure DynamicArea where
  area_id : PyStr
  description : PyStr
  proj_dict : List (PyStr × PVal)
  width : Option ℤ
  height : Option ℤ
  area_extent : Option Vec4
  rotation : Option ℚ
  optimize_projection : Bool
deriving DecidableEq

/-- The two kinds of grid definition the factory can produce. -/
inductive AreaDefinition where
  | static (a : StaticArea)
  | dynamic (a : DynamicArea)
deriving DecidableEq

/-- `_make_area` (utils.py:671-698): finalize the shape axes to integers,
then produce a static `AreaDefinition` when both `shape` and `area_extent`
are present, a `DynamicAreaDefinition` when exactly one is, and raise the
insufficient-information `ValueError` when neither is. -/
def _make_area (area_id description : PyStr) (proj_id : Option PyStr)
    (proj_dict : List (PyStr × PVal)) (shape : Option Vec2) (area_extent : Option Vec4)
    (kwargs : Kwargs) : Except PyErr AreaDefinition :=
  let width : Option ℤ := shape.map (fun s => _shape_axis_to_int s.2)
  let height : Option ℤ := shape.map (fun s => _shape_axis_to_int s.1)
  match area_extent, width, height with
  | some ae, some w, some h =>
    .ok (.static ⟨area_id, description, proj_id, proj_dict, w, h, ae, kwargs⟩)
  | some ae, none, none =>
    .ok (.dynamic ⟨area_id, description, proj_dict, none, none, some ae,
      kwargs.rotation, kwargs.optimize_projection.getD false⟩)
  | none, some w, some h =>
    .ok (.dynamic ⟨area_id, description, proj_dict, some w, some h, none,
      kwargs.rotation, kwargs.optimize_projection.getD false⟩)
  | _, _, _ => .error .insufficientParams

/-- View of a normalized length-2 value as a `_convert_units` argument
(`internalShape` is unreachable after `_verify_list` has checked lengths). -/
def toUVar : VerifiedVal → Except PyErr UVar
  | .plain [a, b] => .ok (.plain (a, b))
  | .dataArray [a, b] u => .ok (.withUnits (a, b) u)
  | _ => .error .internalShape

/-- View of a normalized length-2 plain value as a pair (the `shape`
argument; `_verify_list` never leaves `shape` as a `DataArray`). -/
def toVec2 : VerifiedVal → Except PyErr Vec2
  | .plain [a, b] => .ok (a, b)
  | _ => .error .internalShape

/-- View of a normalized length-4 value as an `area_extent` argument. -/
def toAExt : VerifiedVal → Except PyErr AExt
  | .plain [a, b, c, d] => .ok (.plain ⟨a, b, c, d⟩)
  | .dataArray [a, b, c, d] u => .ok (.withUnits ⟨a, b, c, d⟩ u)
  | _ => .error .internalShape

/-- `Option.mapM`-style helper for the `toUVar`/`toVec2`/`toAExt` views. -/
def optView (f : VerifiedVal → Except PyErr β) : Option VerifiedVal → Except PyErr (Option β)
  | none => .ok none
  | some v => (f v).map some

/-- `from_params` (utils.py:588-668), with the projection already resolved:
the source's `_get_proj_data` builds a `pyproj.Proj` from the proj dict or
string, an external capability supplied here as `p` alongside `proj_dict`.
Resolves default units from the proj dict, normalizes the six quantities,
converts positional ones to meters, runs the inference engine when `shape`
or `area_extent` is missing, and hands the result to `_make_area`. -/
def from_params (p : Projection) (proj_dict : List (PyStr × PVal)) (area_id : PyStr)
    (shape top_left_extent center area_extent resolution radius : Option PyVal)
    (units0 : Option PyStr) (description : Option PyStr)
    (proj_id : Option PyStr) (kwargs : Kwargs) :
    Except PyErr AreaDefinition := do
  let description := description.getD area_id
  let units :=
    match units0 with
    | some u => u
    | none =>
      match dictLookup proj_dict (pstr "units") with
      | some (.pstrv u) => u
      | _ => pstr "meters"
  let center ← _verify_list (pstr "center") center 2
  let radius ← _verify_list (pstr "radius") radius 2
  let top_left_extent ← _verify_list (pstr "top_left_extent") top_left_extent 2
  let resolution ← _verify_list (pstr "resolution") resolution 2
  let shape ← _verify_list (pstr "shape") shape 2
  let area_extent ← _verify_list (pstr "area_extent") area_extent 4
  let centerU ← optView toUVar center
  let tleU ← optView toUVar top_left_extent
  let aeU ← optView toAExt area_extent
  let radiusU ← optView toUVar radius
  let resolutionU ← optView toUVar resolution
  let shapeV ← optView toVec2 shape
  let (c, t, ae) ← _get_converted_lists p centerU tleU aeU units
  let (ae, sh) ←
    if ae.isNone || shapeV.isNone then
      _extrapolate_information p units ae shapeV c radiusU resolutionU t
    else pure (ae, shapeV)
  _make_area area_id description proj_id proj_dict sh ae kwargs

/-- `load_area` (utils.py:45-72) applied to the definition list coming back
from `parse_area_file`: a single definition is returned bare, anything else
as the list itself. -/
def load_area {A : Type} (area_list : List A) : A ⊕ List A :=
  match area_list with
  | [a] => Sum.inl a
  | l => Sum.inr l

/-! ### Hierarchical catalog extraction (`_get_list`) -/

/-- A scalar inside a parsed hierarchical (yaml) catalog entry. -/
inductive YLeaf where
  | num (q : ℚ)
  | str (s : PyStr)
deriving DecidableEq

/-- A value inside a per-quantity sub-mapping: a scalar or a flat list
(deeper nesting does not occur in the catalog format). -/
inductive YItem where
  | leaf (x : YLeaf)
  | sub (xs : List YLeaf)
deriving DecidableEq

/-- A raw per-quantity value in a catalog entry: a flat (non-`dict`) value,
or a sub-mapping from component names to values. -/
inductive YTop where
  | flat (v : YItem)
  | map (entries : List (PyStr × YItem))
deriving DecidableEq

/-- Lookup in a per-quantity sub-mapping (Python `variable[arg]` /
`variable.get(arg)`). -/
def lookupItem (entries : List (PyStr × YItem)) (k : PyStr) : Option YItem :=
  (entries.find? (fun p => p.1 = k)).map (·.2)

/-- Lookup of a quantity in a catalog entry (Python `params[var]`). -/
def lookupYTop (params : List (PyStr × YTop)) (k : PyStr) : Option YTop :=
  (params.find? (fun p => p.1 = k)).map (·.2)

/-- The running `list_of_values` of `_get_list`: the empty-or-extended list,
or a bare scalar that the bare-name key assigned wholesale (on which a later
`.append`/`.extend` raises `AttributeError`). -/
inductive LOV where
  | items (l : List YItem)
  | scalar (x : YLeaf)
deriving DecidableEq

/-- The result of `_get_list`: the `default` (`None`), a non-`dict` value
returned unchanged, or the collected component list, optionally wrapped as a
unit-tagged `DataArray` when the sub-mapping has a `units` field. -/
inductive GetOut where
  | missing
  | raw (v : YItem)
  | vals (l : LOV)
  | valsU (l : LOV) (units : YItem)
deriving DecidableEq

/-- One iteration of the `_get_list` loop body (utils.py:166-179) at key
`arg`: the bare-name key replaces `list_of_values` wholesale; a list value
under `lower_left_xy`/`upper_right_xy` is `extend`ed; anything else is
`append`ed; `append`/`extend` on a non-list raises `AttributeError`, turned
into the too-many-arguments `ValueError`. -/
def _get_list_step (entries : List (PyStr × YItem)) (var : PyStr) (lov : LOV) (arg : PyStr) :
    Except PyErr LOV :=
  match lookupItem entries arg with
  | none => .ok lov
  | some v =>
    if arg = var then
      .ok (match v with
        | .leaf x => .scalar x
        | .sub ys => .items (ys.map .leaf))
    else if (arg = pstr "lower_left_xy" || arg = pstr "upper_right_xy") &&
        (match v with | .sub _ => true | .leaf _ => false) then
      match lov with
      | .items l => .ok (.items (l ++ (match v with | .sub ys => ys.map .leaf | .leaf x => [.leaf x])))
      | .scalar _ => .error (.ambiguousDefinition var arg)
    else
      match lov with
      | .items l => .ok (.items (l ++ [v]))
      | .scalar _ => .error (.ambiguousDefinition var arg)

/-- The tail of `_get_list` (utils.py:180-184): wrap the collected values as
a unit-tagged `DataArray` when the sub-mapping has a `units` field. -/
def _get_list_units_wrap (entries : List (PyStr × YItem)) (lov : LOV) :
    Except PyErr GetOut :=
  match lookupItem entries (pstr "units") with
  | some u => .ok (.valsU lov u)
  | none => .ok (.vals lov)

/-- `_get_list` (utils.py:153-184): read a list-like quantity `var` from a
catalog entry; a sub-mapping is flattened through the fixed component-name
list `arg_list` (with `var` itself inserted in front), and wrapped with the
sub-mapping's `units` tag when present. -/
def _get_list (params : List (PyStr × YTop)) (var : PyStr) (arg_list : List PyStr) :
    Except PyErr GetOut := do
  match lookupYTop params var with
  | none => return .missing
  | some (.flat v) => return .raw v
  | some (.map entries) =>
    let lov ← (var :: arg_list).foldlM (_get_list_step entries var) (.items [])
    _get_list_units_wrap entries lov

/-! ### Legacy catalog parser (`_parse_legacy_area_file`) -/

/-- The mutable state of the legacy line scanner (utils.py:210-236):
whether we are inside a block, the last extracted identifier, the block
buffer, and the accumulated definitions (an append list in select-all mode,
a positional slot list when specific names were requested).  `A` is the
result type of the external `_create_area` block converter. -/
structure LegacyState (A : Type) where
  selectAll : Bool
  areaList : List PyStr
  inArea : Bool
  areaId : PyStr
  content : PyStr
  defsAll : List A
  defsReq : List (Option A)

/-- One line of the legacy scan (utils.py:220-236). -/
def legacyStep {A : Type} (create : PyStr → PyStr → A) (st : LegacyState A) (line : PyStr) :
    LegacyState A :=
  if !st.inArea then
    if pyContains line (pstr "REGION") then
      let area_id := pyStrip (pyReplace (pstr "\x7b") [] (pyReplace (pstr "REGION:") [] line))
      if st.areaList.contains area_id || st.selectAll then
        { st with inArea := true, areaId := area_id, content := [] }
      else
        { st with areaId := area_id }
    else st
  else if pyContains line (pstr "\x7d;") then
    if st.selectAll then
      { st with inArea := false, defsAll := st.defsAll ++ [create st.areaId st.content] }
    else
      { st with
        inArea := false
        defsReq := st.defsReq.set (st.areaList.indexOf st.areaId)
          (some (create st.areaId st.content)) }
  else { st with content := st.content ++ line }

/-- Initial scanner state for a request list. -/
def legacyInit (A : Type) (regions : List PyStr) : LegacyState A :=
  ⟨regions.isEmpty, regions, false, [], [], [], regions.map (fun _ => none)⟩

/-- The `AreaNotFound` message `'Area "%s" not found in file "%s"'`. -/
def notFoundMsg (name fname : PyStr) : PyStr :=
  pstr "Area \"" ++ name ++ pstr "\" not found in file \"" ++ fname ++ pstr "\""

/-- `_parse_legacy_area_file` (utils.py:206-244): scan the lines with the
two-state machine, then — only when specific names were requested — fail
with `AreaNotFound` at the first request whose slot is still empty.
`_create_area` (which feeds a block's key/value record through `from_params`
and external libraries) is abstracted as `create`. -/
def _parse_legacy_area_file {A : Type} (create : PyStr → PyStr → A) (area_file_name : PyStr)
    (lines : List PyStr) (regions : List PyStr) : Except PyErr (List A) :=
  let st := lines.foldl (legacyStep create) (legacyInit A regions)
  if st.selectAll then .ok st.defsAll
  else
    match st.defsReq.findIdx? Option.isNone with
    | some i => .error (.areaNotFound (notFoundMsg (regions.getD i []) area_file_name))
    | none => .ok (st.defsReq.filterMap id)

/-! ### Statement support -/

/-- The observable outcome kinds of the factory decision. -/
inductive AreaKind where
  | static
  | dynamic
  | errInsufficient
  | errOther
deriving DecidableEq

/-- Classify a factory result. -/
def areaKind : Except PyErr AreaDefinition → AreaKind
  | .ok (.static _) => .static
  | .ok (.dynamic _) => .dynamic
  | .error .insufficientParams => .errInsufficient
  | .error _ => .errOther

/-- A stub projection capability (identity transform, never failing, not
geographic), used to instantiate theorems at concrete inputs. -/
def trivialProj : Projection :=
  ⟨false, fun v _ _ => v, fun _ _ _ => true⟩

end PyreUtils

namespace PyreUtils

/-! ## Helper lemmas -/

theorem pyIsPre_iff_isPrefix {p s : PyStr} : pyIsPre p s = true ↔ p <+: s := by
  induction p generalizing s with
  | nil => simp [pyIsPre]
  | cons c cs ih =>
    cases s with
    | nil => simp [pyIsPre]
    | cons d ds =>
      simp only [pyIsPre, Bool.and_eq_true, decide_eq_true_eq, ih, List.cons_prefix_cons]

theorem pyContains_of_infix {s p : PyStr} (h : p <:+: s) : pyContains s p = true := by
  induction s with
  | nil =>
    rcases h with ⟨t, u, htu⟩
    rcases List.append_eq_nil.mp htu with ⟨htp, -⟩
    rcases List.append_eq_nil.mp htp with ⟨-, hp⟩
    simp [pyContains, hp]
  | cons c rest ih =>
    rcases h with ⟨t, u, htu⟩
    cases t with
    | nil =>
      simp only [List.nil_append] at htu
      have hpre : p <+: c :: rest := ⟨u, htu⟩
      simp [pyContains, pyIsPre_iff_isPrefix.mpr hpre]
    | cons x xs =>
      simp only [List.cons_append] at htu
      have : p <:+: rest := ⟨xs, u, (List.cons.injEq _ _ _ _ ▸ htu).2⟩
      simp [pyContains, ih this]

/-! ## Claims -/

/-- C1: at the terminal factory decision of `from_params`, `_make_area`
produces a static `AreaDefinition` when both `shape` and `area_extent` are
resolved, a `DynamicAreaDefinition` when exactly one of them is, and fails
with the insufficient-parameters `ValueError` (producing no definition)
when neither is. -/
theorem claim_C1_make_area_decision (area_id description : PyStr) (proj_id : Option PyStr)
    (proj_dict : List (PyStr × PVal)) (shape : Option Vec2) (area_extent : Option Vec4)
    (kwargs : Kwargs) :
    areaKind (_make_area area_id description proj_id proj_dict shape area_extent kwargs) =
      if shape.isSome && area_extent.isSome then .static
      else if shape.isSome || area_extent.isSome then .dynamic
      else .errInsufficient := by
  cases shape <;> cases area_extent <;> rfl

/-- C3: `_validate_variable` raises the conflicting-parameters error exactly
when an existing value is present and not `np.allclose` to the derived one;
in every other case (no existing value, or close agreement) it returns the
derived value. -/
theorem claim_C3_validate_variable (α : Type) [NpAllClose α] (v nv : α) (name : PyStr)
    (srcs : List PyStr) :
    (_validate_variable (some v) nv name srcs = .error (.conflictingParams name srcs) ↔
      NpAllClose.allclose v nv = false) ∧
    (NpAllClose.allclose v nv = true → _validate_variable (some v) nv name srcs = .ok nv) ∧
    _validate_variable none nv name srcs = .ok nv := by
  refine ⟨?_, ?_, rfl⟩ <;>
    cases hc : NpAllClose.allclose v nv <;> simp [_validate_variable, hc]

/-- Witness for C3 at concrete inputs: a consistent pair is accepted and
replaced by the derived value, a conflicting pair raises. -/
theorem claim_C3_validate_variable_witness :
    _validate_variable (some ((1 : ℚ), (1 : ℚ))) ((1 : ℚ), (1 : ℚ)) (pstr "center") [] =
      .ok (1, 1) ∧
    _validate_variable (some ((0 : ℚ), (0 : ℚ))) ((5 : ℚ), (5 : ℚ)) (pstr "center") [] =
      .error (.conflictingParams (pstr "center") []) :=
  ⟨(claim_C3_validate_variable Vec2 (1, 1) (1, 1) (pstr "center") []).2.1 (by decide),
   (claim_C3_validate_variable Vec2 (0, 0) (5, 5) (pstr "center") []).1.mpr (by decide)⟩

/-- C7: a scalar numeric input to the shape normalizer is broadcast to a
pair of equal floats for `radius`/`resolution` and rejected with the
not-list-like `ValueError` for every other quantity name. -/
theorem claim_C7_scalar_normalization (q : ℚ) :
    _verify_list (pstr "radius") (some (.plain (.scalar (.num q)))) 2 =
      .ok (some (.plain [q, q])) ∧
    _verify_list (pstr "resolution") (some (.plain (.scalar (.num q)))) 2 =
      .ok (some (.plain [q, q])) ∧
    _verify_list (pstr "shape") (some (.plain (.scalar (.num q)))) 2 =
      .error (.notListLike (pstr "shape")) ∧
    _verify_list (pstr "center") (some (.plain (.scalar (.num q)))) 2 =
      .error (.notListLike (pstr "center")) ∧
    _verify_list (pstr "top_left_extent") (some (.plain (.scalar (.num q)))) 2 =
      .error (.notListLike (pstr "top_left_extent")) ∧
    _verify_list (pstr "area_extent") (some (.plain (.scalar (.num q)))) 4 =
      .error (.notListLike (pstr "area_extent")) :=
  ⟨rfl, rfl, rfl, rfl, rfl, rfl⟩

/-- C9: `load_area` unwraps a singleton result list to the bare definition
(whatever produced the single element — an explicit one-name request or a
select-all scan of a one-area catalog) and returns the list itself in every
other case. -/
theorem claim_C9_load_area_single (A : Type) (l : List A) :
    (∀ a : A, load_area l = Sum.inl a ↔ l = [a]) ∧
    (l.length = 1 → ∃ a, l = [a] ∧ load_area l = Sum.inl a) ∧
    (l.length ≠ 1 → load_area l = Sum.inr l) := by
  match l with
  | [] => exact ⟨by simp [load_area], by simp, fun _ => rfl⟩
  | [a] =>
    refine ⟨fun x => ?_, fun _ => ⟨a, rfl, rfl⟩, fun h => absurd rfl h⟩
    simp [load_area]
  | a :: b :: r =>
    refine ⟨fun x => ?_, fun h => by simp at h, fun _ => rfl⟩
    simp [load_area]

/-- Witness for C9: a select-all legacy scan of a one-block catalog yields a
one-element list, which `load_area` unwraps; a two-element list is returned
as-is. -/
theorem claim_C9_load_area_single_witness :
    _parse_legacy_area_file (fun i c => (i, c)) (pstr "f")
      [pstr "REGION: foo \x7b", pstr "XSIZE: 10", pstr "\x7d;"] [] =
      .ok [(pstr "foo", pstr "XSIZE: 10")] ∧
    load_area [(pstr "foo", pstr "XSIZE: 10")] = Sum.inl (pstr "foo", pstr "XSIZE: 10") ∧
    load_area [(1 : ℕ), 2] = Sum.inr [1, 2] :=
  ⟨by decide,
   ((claim_C9_load_area_single _ [(pstr "foo", pstr "XSIZE: 10")]).1 _).mpr rfl,
   (claim_C9_load_area_single ℕ [1, 2]).2.2 (by decide)⟩

/-! Lemmas about the legacy scanner state. -/

theorem legacyStep_selectAll {A : Type} (create : PyStr → PyStr → A) (st : LegacyState A)
    (line : PyStr) : (legacyStep create st line).selectAll = st.selectAll := by
  unfold legacyStep
  dsimp only
  repeat' split
  all_goals rfl

theorem legacy_foldl_selectAll {A : Type} (create : PyStr → PyStr → A) (lines : List PyStr)
    (st : LegacyState A) :
    (lines.foldl (legacyStep create) st).selectAll = st.selectAll := by
  induction lines generalizing st with
  | nil => rfl
  | cons l ls ih => rw [List.foldl_cons, ih, legacyStep_selectAll]

theorem legacy_foldl_inBlock {A : Type} (create : PyStr → PyStr → A) (rest : List PyStr)
    (st : LegacyState A) (hin : st.inArea = true)
    (hrest : ∀ l ∈ rest, pyContains l (pstr "\x7d;") = false) :
    (rest.foldl (legacyStep create) st).defsAll = st.defsAll ∧
    (rest.foldl (legacyStep create) st).inArea = true := by
  induction rest generalizing st with
  | nil => exact ⟨rfl, hin⟩
  | cons l ls ih =>
    have hl := hrest l (List.mem_cons_self _ _)
    have hstep : legacyStep create st l = { st with content := st.content ++ l } := by
      unfold legacyStep
      simp [hin, hl]
    rw [List.foldl_cons, hstep]
    exact ih _ hin (fun x hx => hrest x (List.mem_cons_of_mem _ hx))

theorem legacyStep_open {A : Type} (create : PyStr → PyStr → A) (st : LegacyState A)
    (line : PyStr) (hout : st.inArea = false) (hsel : st.selectAll = true)
    (hopen : pyContains line (pstr "REGION") = true) :
    legacyStep create st line =
      { st with
        inArea := true
        areaId := pyStrip (pyReplace (pstr "\x7b") [] (pyReplace (pstr "REGION:") [] line))
        content := [] } := by
  unfold legacyStep
  simp [hout, hopen, hsel]

/-- C4 (amended): when specific names were requested and at least one is
unmatched after the full scan, the legacy parser fails with `AreaNotFound`
naming the FIRST unmatched request (the error message does not mention the
other unmatched names; see the counterexample). -/
theorem claim_C4_first_unmatched (A : Type) (create : PyStr → PyStr → A) (fname : PyStr)
    (lines : List PyStr) (regions : List PyStr) (i : ℕ)
    (hne : regions ≠ [])
    (hfind : ((lines.foldl (legacyStep create) (legacyInit A regions)).defsReq.findIdx?
      Option.isNone) = some i) :
    _parse_legacy_area_file create fname lines regions =
      .error (.areaNotFound (notFoundMsg (regions.getD i []) fname)) ∧
    pyContains (notFoundMsg (regions.getD i []) fname) (regions.getD i []) = true := by
  constructor
  · have hsel : (lines.foldl (legacyStep create) (legacyInit A regions)).selectAll = false := by
      rw [legacy_foldl_selectAll]
      simpa [legacyInit] using hne
    simp only [_parse_legacy_area_file, hsel, hfind]
    rfl
  · exact pyContains_of_infix
      ⟨pstr "Area \"", pstr "\" not found in file \"" ++ fname ++ pstr "\"",
        by simp [notFoundMsg]⟩

/-- Counterexample for C4 as stated: requesting `A` and `B` against an empty
catalog leaves both unmatched (both slots are `None` after the scan), yet
the error message names only `A`, not `B`. -/
theorem claim_C4_cex :
    (([] : List PyStr).foldl (legacyStep (fun i _ => i)) (legacyInit PyStr
      [pstr "A", pstr "B"])).defsReq = [none, none] ∧
    _parse_legacy_area_file (fun i _ => i) (pstr "") ([] : List PyStr) [pstr "A", pstr "B"] =
      .error (.areaNotFound (notFoundMsg (pstr "A") (pstr ""))) ∧
    pyContains (notFoundMsg (pstr "A") (pstr "")) (pstr "B") = false := by
  refine ⟨rfl, ?_, by decide⟩
  decide

/-- Witness for C4 (amended): with requests `A`, `B` and a catalog matching
only `B`, the first unmatched request is `A` and the failure names it. -/
theorem claim_C4_first_unmatched_witness :
    _parse_legacy_area_file (fun i _ => i) (pstr "f")
      [pstr "REGION: B \x7b", pstr "\x7d;"] [pstr "A", pstr "B"] =
      .error (.areaNotFound (notFoundMsg (pstr "A") (pstr "f"))) ∧
    pyContains (notFoundMsg (pstr "A") (pstr "f")) (pstr "A") = true :=
  claim_C4_first_unmatched PyStr (fun i _ => i) (pstr "f")
    [pstr "REGION: B \x7b", pstr "\x7d;"] [pstr "A", pstr "B"] 0 (by decide) (by decide)

/-- C10: in select-all mode, a block whose `REGION` marker opens but whose
`};` closing marker never appears before end of input contributes nothing
and raises nothing: the parse of the whole input equals the parse of the
lines before the unterminated block. -/
theorem claim_C10_unterminated_block (A : Type) (create : PyStr → PyStr → A) (fname : PyStr)
    (ls : List PyStr) (openLine : PyStr) (rest : List PyStr)
    (hout : (ls.foldl (legacyStep create) (legacyInit A [])).inArea = false)
    (hopen : pyContains openLine (pstr "REGION") = true)
    (hrest : ∀ l ∈ rest, pyContains l (pstr "\x7d;") = false) :
    _parse_legacy_area_file create fname (ls ++ openLine :: rest) [] =
      _parse_legacy_area_file create fname ls [] := by
  have hsel : (ls.foldl (legacyStep create) (legacyInit A [])).selectAll = true := by
    rw [legacy_foldl_selectAll]; rfl
  have hopenStep := legacyStep_open create (ls.foldl (legacyStep create) (legacyInit A []))
    openLine hout hsel hopen
  have hfold : (ls ++ openLine :: rest).foldl (legacyStep create) (legacyInit A []) =
      rest.foldl (legacyStep create)
        (legacyStep create (ls.foldl (legacyStep create) (legacyInit A [])) openLine) := by
    rw [List.foldl_append, List.foldl_cons]
  have hblock := legacy_foldl_inBlock create rest
    (legacyStep create (ls.foldl (legacyStep create) (legacyInit A [])) openLine)
    (by rw [hopenStep]) hrest
  simp only [_parse_legacy_area_file, hfold, legacy_foldl_selectAll, legacyStep_selectAll, hsel]
  rw [hblock.1, hopenStep]
  simp

/-- Success inversion for `Except` bind. -/
theorem exceptBind_ok {ε α β : Type} {m : Except ε α} {f : α → Except ε β} {b : β}
    (h : m >>= f = .ok b) : ∃ a, m = .ok a ∧ f a = .ok b := by
  cases m with
  | error e => simp [Bind.bind, Except.bind] at h
  | ok a => exact ⟨a, rfl, by simpa [Bind.bind, Except.bind] using h⟩

set_option maxHeartbeats 1000000 in
/-- C8: whenever `_convert_units` returns normally on a non-null `radius` or
`resolution` vector — whatever the units, inverse flag, center and projection
involved — both components of the returned vector are non-negative. -/
theorem claim_C8_nonneg (p : Projection) (var : UVar) (name units : PyStr) (inverse : Bool)
    (center : Option Vec2) (r : Vec2)
    (hname : name = pstr "radius" ∨ name = pstr "resolution")
    (h : _convert_units p (some var) name units inverse center = .ok (some r)) :
    0 ≤ r.1 ∧ 0 ≤ r.2 := by
  rcases hname with rfl | rfl <;> cases var <;>
  · unfold _convert_units at h
    dsimp only at h
    simp only [reduceIte, decide_True, Bool.true_or, Bool.or_true, if_true,
      eq_self_iff_true] at h
    repeat'
      first
      | (obtain ⟨_, hdead, h⟩ := exceptBind_ok h
         first
         | exact absurd hdead (fun hx => Except.noConfusion hx)
         | clear hdead)
      | split at h
      | dsimp only at h
    all_goals
      simp only [pure, Except.pure, Except.ok.injEq, Option.some.injEq] at h
    all_goals try subst h
    all_goals try exact ⟨abs_nonneg _, abs_nonneg _⟩

/-- Witness for C8: converting the radius `(3, -4)` in meters returns
`(3, 4)`, whose components are non-negative. -/
theorem claim_C8_nonneg_witness :
    _convert_units trivialProj (some (.plain (3, -4))) (pstr "radius") (pstr "meters")
      false none = .ok (some (3, 4)) ∧ (0 ≤ (3 : ℚ) ∧ 0 ≤ (4 : ℚ)) :=
  ⟨by decide,
   claim_C8_nonneg trivialProj (.plain (3, -4)) (pstr "radius") (pstr "meters") false none
     (3, 4) (Or.inl rfl) (by decide)⟩

/-- C2: whenever `radius` and `resolution` are both resolved in meters and
the shape-derivation step runs, the inference engine derives
`shape = (2*radius_y/resolution_y, 2*radius_x/resolution_x)` — rows from the
y components and columns from the x components — and cross-checks it against
any caller-supplied `shape` through `_validate_variable` before continuing
with the extent derivation.  (The non-zero hypotheses reflect Python's
`ZeroDivisionError` on a zero resolution component.) -/
theorem claim_C2_shape_derivation (p : Projection) (units : PyStr) (area_extent : Option Vec4)
    (shape : Option Vec2) (center : Option Vec2) (radius resolution : Option UVar)
    (top_left_extent : Option Vec2) (c' t' : Option Vec2) (r s : Vec2)
    (h1 : _extrap_block1 p units area_extent center radius top_left_extent = .ok (c', some r, t'))
    (h2 : _convert_units p resolution (pstr "resolution") units false c' = .ok (some s))
    (hs1 : s.1 ≠ 0) (hs2 : s.2 ≠ 0) :
    _extrapolate_information p units area_extent shape center radius resolution top_left_extent =
      (_validate_variable shape (2 * r.2 / s.2, 2 * r.1 / s.1) (pstr "shape")
        [pstr "radius", pstr "resolution"]).bind
        (fun sh => (_extrap_block3 c' (some r) t' area_extent).map (fun ae => (ae, some sh))) := by
  unfold _extrapolate_information
  rw [h1]
  simp only [Bind.bind, Except.bind]
  rw [h2]
  unfold _extrap_block2
  simp only [hs1, hs2, decide_False, Bool.or_self, Bool.false_eq_true, if_false]
  cases hv : _validate_variable shape (2 * r.2 / s.2, 2 * r.1 / s.1) (pstr "shape")
      [pstr "radius", pstr "resolution"] with
  | error e => simp [hv, Bind.bind, Except.bind]
  | ok sh =>
    cases hb : _extrap_block3 c' (some r) t' area_extent with
    | error e => simp [hv, hb, Bind.bind, Except.bind, Except.map, pure, Except.pure]
    | ok ae => simp [hv, hb, Bind.bind, Except.bind, Except.map, pure, Except.pure]

/-- Witness for C2: center `(5,5)`, radius `(3,4)`, resolution `(1,2)` in
meters derive shape `(2*4/2, 2*3/1) = (4, 6)` (rows, cols) and extent
`(2, 1, 8, 9)`. -/
theorem claim_C2_shape_derivation_witness :
    _extrapolate_information trivialProj (pstr "meters") none none (some (5, 5))
      (some (.plain (3, 4))) (some (.plain (1, 2))) none =
      .ok (some ⟨2, 1, 8, 9⟩, some (4, 6)) := by
  rw [claim_C2_shape_derivation trivialProj (pstr "meters") none none (some (5, 5))
    (some (.plain (3, 4))) (some (.plain (1, 2))) none (some (5, 5)) none (3, 4) (1, 2)
    (by decide) (by decide) (by decide) (by decide)]
  decide

/-! C5 support lemmas. -/

theorem getlist_fold_items (entries : List (PyStr × YItem)) (var : PyStr) (args : List PyStr)
    (l : List YItem) (hnv : var ∉ args) :
    ∃ l', args.foldlM (_get_list_step entries var) (LOV.items l) = .ok (.items l') := by
  induction args generalizing l with
  | nil => exact ⟨l, rfl⟩
  | cons a as ih =>
    have hav : ¬(a = var) := fun hx => hnv (hx ▸ List.mem_cons_self a as)
    have hnv' : var ∉ as := fun hx => hnv (List.mem_cons_of_mem _ hx)
    rw [List.foldlM_cons]
    cases hl : lookupItem entries a with
    | none =>
      simp only [_get_list_step, hl]
      simpa [Bind.bind, Except.bind] using ih l hnv'
    | some v =>
      simp only [_get_list_step, hl, if_neg hav]
      split
      · simpa [Bind.bind, Except.bind] using ih _ hnv'
      · simpa [Bind.bind, Except.bind] using ih _ hnv'

theorem getlist_fold_scalar_err (entries : List (PyStr × YItem)) (var : PyStr)
    (args : List PyStr) (x : YLeaf) (hnv : var ∉ args)
    (hpres : ∃ a ∈ args, (lookupItem entries a).isSome) :
    ∃ a ∈ args, args.foldlM (_get_list_step entries var) (LOV.scalar x) =
      .error (.ambiguousDefinition var a) := by
  induction args with
  | nil => simp at hpres
  | cons a as ih =>
    have hav : ¬(a = var) := fun hx => hnv (hx ▸ List.mem_cons_self a as)
    have hnv' : var ∉ as := fun hx => hnv (List.mem_cons_of_mem _ hx)
    rw [List.foldlM_cons]
    cases hl : lookupItem entries a with
    | some v =>
      refine ⟨a, List.mem_cons_self a as, ?_⟩
      simp only [_get_list_step, hl, if_neg hav]
      split <;> simp [Bind.bind, Except.bind]
    | none =>
      have hpres' : ∃ b ∈ as, (lookupItem entries b).isSome := by
        rcases hpres with ⟨b, hb, hbs⟩
        rcases List.mem_cons.mp hb with rfl | hb'
        · rw [hl] at hbs; simp at hbs
        · exact ⟨b, hb', hbs⟩
      rcases ih hnv' hpres' with ⟨b, hb, hfold⟩
      refine ⟨b, List.mem_cons_of_mem _ hb, ?_⟩
      simp only [_get_list_step, hl]
      simpa [Bind.bind, Except.bind] using hfold

theorem getlist_fold_scalar_ok (entries : List (PyStr × YItem)) (var : PyStr)
    (args : List PyStr) (x : YLeaf)
    (habs : ∀ a ∈ args, lookupItem entries a = none) :
    args.foldlM (_get_list_step entries var) (LOV.scalar x) = .ok (.scalar x) := by
  induction args with
  | nil => rfl
  | cons a as ih =>
    rw [List.foldlM_cons]
    simp only [_get_list_step, habs a (List.mem_cons_self a as)]
    simpa [Bind.bind, Except.bind] using ih (fun b hb => habs b (List.mem_cons_of_mem _ hb))

theorem getlist_wrap_ne_error (entries : List (PyStr × YItem)) (lov : LOV) (e : PyErr) :
    _get_list_units_wrap entries lov ≠ .error e := by
  unfold _get_list_units_wrap
  cases lookupItem entries (pstr "units") <;> simp

theorem exceptBind_err {ε α β : Type} {m : Except ε α} {f : α → Except ε β} {e : ε}
    (h : m >>= f = .error e) : m = .error e ∨ ∃ a, m = .ok a ∧ f a = .error e := by
  cases m with
  | error e' => left; simpa [Bind.bind, Except.bind] using h
  | ok a => right; exact ⟨a, rfl, by simpa [Bind.bind, Except.bind] using h⟩

/-- C5 (amended): in the hierarchical catalog parser, extraction of a
per-quantity sub-mapping fails with the `AmbiguousDefinition` `ValueError`
exactly when the bare-name key is present with a SCALAR value and at least
one component key is also present; when the bare-name value is a list, the
component values are silently appended to it instead (see the
counterexample).  The error always names the quantity and a component key. -/
theorem claim_C5_amended (params : List (PyStr × YTop)) (var : PyStr) (arg_list : List PyStr)
    (entries : List (PyStr × YItem))
    (hvar : lookupYTop params var = some (.map entries))
    (hnv : var ∉ arg_list) :
    ((∃ e, _get_list params var arg_list = .error e) ↔
      ((∃ x, lookupItem entries var = some (.leaf x)) ∧
        ∃ a ∈ arg_list, (lookupItem entries a).isSome)) ∧
    (∀ e, _get_list params var arg_list = .error e →
      ∃ a ∈ arg_list, e = .ambiguousDefinition var a) := by
  have hexp : _get_list params var arg_list =
      (_get_list_step entries var (.items []) var >>= fun lov =>
        arg_list.foldlM (_get_list_step entries var) lov) >>= fun lov =>
        _get_list_units_wrap entries lov := by
    unfold _get_list
    rw [hvar]
    rfl
  have hstep0 : _get_list_step entries var (.items []) var =
      (match lookupItem entries var with
        | none => .ok (.items [])
        | some (.leaf x) => .ok (.scalar x)
        | some (.sub ys) => .ok (.items (ys.map .leaf))) := by
    unfold _get_list_step
    cases lookupItem entries var with
    | none => rfl
    | some v => cases v <;> simp
  cases hl : lookupItem entries var with
  | none =>
    obtain ⟨l', hfold⟩ := getlist_fold_items entries var arg_list [] hnv
    have hred : _get_list params var arg_list = _get_list_units_wrap entries (.items l') := by
      rw [hexp, hstep0, hl]
      dsimp only [Bind.bind, Except.bind]
      rw [hfold]
    constructor
    · constructor
      · rintro ⟨e, he⟩
        rw [hred] at he
        exact absurd he (getlist_wrap_ne_error entries _ e)
      · rintro ⟨⟨x, hx⟩, -⟩
        exact absurd hx (by simp)
    · intro e he
      rw [hred] at he
      exact absurd he (getlist_wrap_ne_error entries _ e)
  | some v =>
    cases v with
    | sub ys =>
      obtain ⟨l', hfold⟩ := getlist_fold_items entries var arg_list (ys.map .leaf) hnv
      have hred : _get_list params var arg_list = _get_list_units_wrap entries (.items l') := by
        rw [hexp, hstep0, hl]
        dsimp only [Bind.bind, Except.bind]
        rw [hfold]
      constructor
      · constructor
        · rintro ⟨e, he⟩
          rw [hred] at he
          exact absurd he (getlist_wrap_ne_error entries _ e)
        · rintro ⟨⟨x, hx⟩, -⟩
          simp at hx
      · intro e he
        rw [hred] at he
        exact absurd he (getlist_wrap_ne_error entries _ e)
    | leaf x =>
      have hred : _get_list params var arg_list =
          (arg_list.foldlM (_get_list_step entries var) (.scalar x)) >>= fun lov =>
            _get_list_units_wrap entries lov := by
        rw [hexp, hstep0, hl]
        dsimp only [Bind.bind, Except.bind]
      have hnoerr : (∀ a ∈ arg_list, lookupItem entries a = none) →
          ∀ e, _get_list params var arg_list ≠ .error e := by
        intro habs e he
        rw [hred, getlist_fold_scalar_ok entries var arg_list x habs] at he
        dsimp only [Bind.bind, Except.bind] at he
        exact absurd he (getlist_wrap_ne_error entries _ e)
      have habs_of : (¬∃ a ∈ arg_list, (lookupItem entries a).isSome) →
          ∀ a ∈ arg_list, lookupItem entries a = none := by
        intro hno a ha
        cases hla : lookupItem entries a with
        | none => rfl
        | some w => exact absurd ⟨a, ha, by rw [hla]; rfl⟩ hno
      constructor
      · constructor
        · rintro ⟨e, he⟩
          refine ⟨⟨x, rfl⟩, ?_⟩
          by_contra hno
          exact hnoerr (habs_of hno) e he
        · rintro ⟨-, hpres⟩
          obtain ⟨a, ha, hfold⟩ := getlist_fold_scalar_err entries var arg_list x hnv hpres
          refine ⟨.ambiguousDefinition var a, ?_⟩
          rw [hred, hfold]
          rfl
      · intro e he
        by_cases hpres : ∃ a ∈ arg_list, (lookupItem entries a).isSome
        · obtain ⟨a, ha, hfold⟩ := getlist_fold_scalar_err entries var arg_list x hnv hpres
          rw [hred, hfold] at he
          dsimp only [Bind.bind, Except.bind] at he
          cases he
          exact ⟨a, ha, rfl⟩
        · exact absurd he (hnoerr (habs_of hpres) e)

/-- Counterexample for C5 as stated: a `center` sub-mapping holding both the
bare key (with a list value) and `center_x` does NOT fail — the component is
appended to the bare list. -/
theorem claim_C5_cex :
    _get_list
      [(pstr "center", .map [(pstr "center", .sub [.num 1, .num 2]),
        (pstr "center_x", .leaf (.num 3))])]
      (pstr "center") [pstr "center_x", pstr "center_y"] =
      .ok (.vals (.items [.leaf (.num 1), .leaf (.num 2), .leaf (.num 3)])) := by
  decide

/-- Witness for C5 (amended): a scalar bare `center` key together with
`center_x` makes extraction fail. -/
theorem claim_C5_amended_witness :
    ∃ e, _get_list
      [(pstr "center", .map [(pstr "center", .leaf (.num 1)),
        (pstr "center_x", .leaf (.num 3))])]
      (pstr "center") [pstr "center_x", pstr "center_y"] = .error e :=
  (claim_C5_amended
    [(pstr "center", .map [(pstr "center", .leaf (.num 1)),
      (pstr "center_x", .leaf (.num 3))])]
    (pstr "center") [pstr "center_x", pstr "center_y"]
    [(pstr "center", .leaf (.num 1)), (pstr "center_x", .leaf (.num 3))]
    (by decide) (by decide)).1.mpr
    ⟨⟨.num 1, by decide⟩, ⟨pstr "center_x", by decide, by decide⟩⟩

/-! C6 support lemmas. -/

theorem pyReplaceGo_single_filter (c : Char) : ∀ (fuel : ℕ) (s : PyStr), s.length ≤ fuel →
    pyReplaceGo [c] [] fuel s = s.filter (fun x => !(x = c)) := by
  intro fuel
  induction fuel with
  | zero => intro s hs; cases s with
    | nil => rfl
    | cons a as => simp at hs
  | succ n ih =>
    intro s hs
    cases s with
    | nil => rfl
    | cons a as =>
      simp only [List.length_cons] at hs
      by_cases hac : a = c
      · subst hac
        have hp : pyIsPre [a] (a :: as) = true := by simp [pyIsPre]
        simp [pyReplaceGo, hp, List.filter, ih as (by omega)]
      · have hp : pyIsPre [c] (a :: as) = false := by
          simp [pyIsPre]
          intro h
          exact absurd h.symm hac
        simp [pyReplaceGo, hp, List.filter, hac, ih as (by omega)]

theorem pyReplace_single_filter (c : Char) (s : PyStr) :
    pyReplace [c] [] s = s.filter (fun x => !(x = c)) :=
  pyReplaceGo_single_filter c s.length s le_rfl

theorem filter_intercalate (p : Char → Bool) (sep : List Char) (xs : List (List Char)) :
    (List.intercalate sep xs).filter p =
      List.intercalate (sep.filter p) (xs.map (List.filter p)) := by
  induction xs with
  | nil => simp [List.intercalate]
  | cons x xs ih =>
    cases xs with
    | nil => simp [List.intercalate]
    | cons y ys =>
      have h1 : List.intercalate sep (x :: y :: ys) =
          x ++ sep ++ List.intercalate sep (y :: ys) := by
        simp [List.intercalate, List.intersperse]
      have h2 : List.intercalate (sep.filter p)
          (x.filter p :: y.filter p :: ys.map (List.filter p)) =
          x.filter p ++ sep.filter p ++
            List.intercalate (sep.filter p) (y.filter p :: ys.map (List.filter p)) := by
        simp [List.intercalate, List.intersperse]
      simp only [List.map_cons] at ih ⊢
      rw [h1, h2, List.filter_append, List.filter_append, ih]

theorem pySplitFirst_no (c : Char) (k : PyStr) (hk : c ∉ k) :
    pySplitFirst c k = [k] := by
  have h2 : k.dropWhile (fun x => !decide (x = c)) = [] :=
    List.dropWhile_eq_nil_iff.mpr (fun a ha => by
      simp only [Bool.not_eq_true', decide_eq_false_iff_not]
      exact fun hx => hk (hx ▸ ha))
  simp [pySplitFirst, h2]
  exact fun a ha hx => hk (hx ▸ ha)

theorem pySplitFirst_eq (c : Char) (k v : PyStr) (hk : c ∉ k) :
    pySplitFirst c (k ++ c :: v) = [k, v] := by
  have h1 : ∀ (k' : PyStr), c ∉ k' →
      (k' ++ c :: v).takeWhile (fun x => !decide (x = c)) = k' := by
    intro k'
    induction k' with
    | nil => intro _; simp [List.takeWhile]
    | cons a as ih =>
      intro hk'
      have ha : a ≠ c := fun hx => hk' (hx ▸ List.mem_cons_self a as)
      simp only [List.cons_append, List.takeWhile_cons, Bool.not_eq_true',
        decide_eq_false_iff_not]
      rw [if_pos ha, ih (fun hx => hk' (List.mem_cons_of_mem _ hx))]
  have h2 : ∀ (k' : PyStr), c ∉ k' →
      (k' ++ c :: v).dropWhile (fun x => !decide (x = c)) = c :: v := by
    intro k'
    induction k' with
    | nil => intro _; simp [List.dropWhile]
    | cons a as ih =>
      intro hk'
      have ha : a ≠ c := fun hx => hk' (hx ▸ List.mem_cons_self a as)
      simp only [List.cons_append, List.dropWhile_cons, Bool.not_eq_true',
        decide_eq_false_iff_not]
      rw [if_pos ha, ih (fun hx => hk' (List.mem_cons_of_mem _ hx))]
  simp [pySplitFirst, h1 k hk, h2 k hk]

theorem filter_eq_self_of_not_mem (c : Char) (l : PyStr) (h : c ∉ l) :
    l.filter (fun x => !(x = c)) = l :=
  List.filter_eq_self.mpr (fun a ha => by
    simp only [Bool.not_eq_true', decide_eq_false_iff_not]
    exact fun hx => h (hx ▸ ha))

theorem dictInsert_fresh (d : List (PyStr × PVal)) (k : PyStr) (v : PVal)
    (h : ∀ p ∈ d, p.1 ≠ k) : dictInsert d k v = d ++ [(k, v)] := by
  unfold dictInsert
  rw [if_neg (by
    simp only [List.any_eq_true, decide_eq_true_eq, not_exists]
    intro p
    rintro ⟨hp, hpk⟩
    exact h p hp hpk)]

theorem convert_foldl (f : (PyStr × PVal) → List PyStr) :
    ∀ (pairs acc : List (PyStr × PVal)),
    (∀ kv ∈ pairs, ∀ dd, convert_proj_floats_step dd (f kv) = dictInsert dd kv.1 kv.2) →
    (∀ kv ∈ pairs, ∀ p ∈ acc, p.1 ≠ kv.1) →
    (pairs.map Prod.fst).Nodup →
    (pairs.map f).foldl convert_proj_floats_step acc = acc ++ pairs := by
  intro pairs
  induction pairs with
  | nil => intro acc _ _ _; simp
  | cons kv rest ih =>
    intro acc hstep hfresh hnd
    simp only [List.map_cons, List.foldl_cons]
    rw [hstep kv (List.mem_cons_self _ _) acc,
      dictInsert_fresh acc kv.1 kv.2 (fun p hp => hfresh kv (List.mem_cons_self _ _) p hp)]
    have hnd' : (rest.map Prod.fst).Nodup := (List.nodup_cons.mp hnd).2
    have hhd : kv.1 ∉ rest.map Prod.fst := (List.nodup_cons.mp hnd).1
    rw [ih (acc ++ [(kv.1, kv.2)])
      (fun kv' h' dd => hstep kv' (List.mem_cons_of_mem _ h') dd) ?_ hnd']
    · simp
    · intro kv' h' p hp
      rcases List.mem_append.mp hp with hp' | hp'
      · exact hfresh kv' (List.mem_cons_of_mem _ h') p hp'
      · have hpkv : p = (kv.1, kv.2) := by simpa using hp'
        subst hpkv
        intro hx
        exact hhd (hx ▸ List.mem_map_of_mem Prod.fst h')

/-- C6 (amended): parsing the rendering of a well-formed PROJ.4 mapping
returns exactly the same mapping — so a round trip
`proj4_str_to_dict (proj4_dict_to_str (proj4_str_to_dict s))` preserves the
key/value pairs of `s` — PROVIDED (`hflag`, both directions needed) every
flag-valued (`True`) key is one of `no_defs`/`no_off`/`no_rot` AND
conversely those three keys only ever occur flag-valued.  Both provisos are
forced by the counterexample: a flag key outside the whitelist (`+south`)
turns into the string pair `south=True`, and a whitelisted key carrying a
value (`+no_defs=3`) is emitted bare, dropping the value.  The
float-formatter hypotheses state the "modulo float formatting" reading:
formatted floats parse back to the same value and contain no `+`/space. -/
theorem claim_C6_amended (fmtFloat : ℚ → PyStr) (d : List (PyStr × PVal))
    (hdne : d ≠ [])
    (hnd : (d.map Prod.fst).Nodup)
    (hkeys : ∀ kv ∈ d, kv.1 ≠ [] ∧ '+' ∉ kv.1 ∧ '=' ∉ kv.1 ∧ ' ' ∉ kv.1)
    (hflag : ∀ kv ∈ d, (kv.2 = PVal.pbool ↔
      (kv.1 = pstr "no_defs" ∨ kv.1 = pstr "no_off" ∨ kv.1 = pstr "no_rot")))
    (hnum : ∀ kv ∈ d, ∀ q, kv.2 = PVal.pnum q →
      pyFloat? (fmtFloat q) = some q ∧ '+' ∉ fmtFloat q ∧ ' ' ∉ fmtFloat q)
    (hstr : ∀ kv ∈ d, ∀ s, kv.2 = PVal.pstrv s →
      pyFloat? s = none ∧ '+' ∉ s ∧ ' ' ∉ s) :
    proj4_str_to_dict (proj4_dict_to_str fmtFloat d) = d := by
  have e1 : pstr "+no_defs" = '+' :: pstr "no_defs" := rfl
  have e2 : pstr "+no_off" = '+' :: pstr "no_off" := rfl
  have e3 : pstr "+no_rot" = '+' :: pstr "no_rot" := rfl
  have hvalNoPlus : ∀ kv ∈ d, kv.2 ≠ PVal.pbool → '+' ∉ pvalFmt fmtFloat kv.2 := by
    intro kv hkv hnb
    cases hv : kv.2 with
    | pbool => exact absurd hv hnb
    | pnum q => exact (hnum kv hkv q hv).2.1
    | pstrv s => exact (hstr kv hkv s hv).2.1
  have hvalNoSpace : ∀ kv ∈ d, kv.2 ≠ PVal.pbool → ' ' ∉ pvalFmt fmtFloat kv.2 := by
    intro kv hkv hnb
    cases hv : kv.2 with
    | pbool => exact absurd hv hnb
    | pnum q => exact (hnum kv hkv q hv).2.2
    | pstrv s => exact (hstr kv hkv s hv).2.2
  have htok : ∀ kv ∈ d, (proj4_dict_to_str_param fmtFloat kv).filter (fun x => !(x = '+')) =
      (if kv.2 = PVal.pbool then kv.1 else kv.1 ++ '=' :: pvalFmt fmtFloat kv.2) := by
    intro kv hkv
    obtain ⟨hne, hplus, heq, hsp⟩ := hkeys kv hkv
    have hpre : pyIsPre (pstr "+") kv.1 = false := by
      cases hk : kv.1 with
      | nil => rfl
      | cons a as =>
        have ha : a ≠ '+' := by
          intro hx
          exact hplus (by rw [hk, hx]; exact List.mem_cons_self _ _)
        simp [pstr, pyIsPre]
        intro hx
        exact absurd hx.symm ha
    unfold proj4_dict_to_str_param
    rw [hpre]
    simp only [Bool.false_eq_true, if_false]
    by_cases hb : kv.2 = PVal.pbool
    · have hspec := (hflag kv hkv).mp hb
      rw [if_pos (show ('+' :: kv.1 = pstr "+no_defs" || '+' :: kv.1 = pstr "+no_off" ||
          '+' :: kv.1 = pstr "+no_rot") = true by
        rcases hspec with h' | h' | h' <;> rw [h'] <;> decide)]
      rw [if_pos hb]
      show ('+' :: kv.1).filter (fun x => !(x = '+')) = kv.1
      simp only [List.filter]
      simpa using filter_eq_self_of_not_mem '+' kv.1 hplus
    · have hspec_not : ¬(kv.1 = pstr "no_defs" ∨ kv.1 = pstr "no_off" ∨ kv.1 = pstr "no_rot") :=
        fun hx => hb ((hflag kv hkv).mpr hx)
      rw [if_neg (show ¬(('+' :: kv.1 = pstr "+no_defs" || '+' :: kv.1 = pstr "+no_off" ||
          '+' :: kv.1 = pstr "+no_rot") = true) by
        intro hx
        simp only [e1, e2, e3, Bool.or_eq_true, decide_eq_true_eq, List.cons.injEq,
          true_and] at hx
        exact hspec_not (or_assoc.mp hx))]
      rw [if_neg hb]
      show ('+' :: (kv.1 ++ '=' :: pvalFmt fmtFloat kv.2)).filter (fun x => !(x = '+')) = _
      simp only [List.filter]
      rw [List.filter_append]
      rw [filter_eq_self_of_not_mem '+' kv.1 hplus]
      rw [show List.filter (fun x => !(x = '+')) ('=' :: pvalFmt fmtFloat kv.2) =
        '=' :: List.filter (fun x => !(x = '+')) (pvalFmt fmtFloat kv.2) by simp [List.filter]]
      rw [filter_eq_self_of_not_mem '+' _ (hvalNoPlus kv hkv hb)]
      rfl
  have hnonnil : d.map (fun kv =>
      if kv.2 = PVal.pbool then kv.1 else kv.1 ++ '=' :: pvalFmt fmtFloat kv.2) ≠ [] := by
    intro hx
    exact hdne (List.map_eq_nil_iff.mp hx)
  have hnosp : ∀ l ∈ d.map (fun kv =>
      if kv.2 = PVal.pbool then kv.1 else kv.1 ++ '=' :: pvalFmt fmtFloat kv.2), ' ' ∉ l := by
    intro l hl
    obtain ⟨kv, hkv, rfl⟩ := List.mem_map.mp hl
    obtain ⟨hne, hplus, heq, hsp⟩ := hkeys kv hkv
    by_cases hb : kv.2 = PVal.pbool
    · rw [if_pos hb]; exact hsp
    · rw [if_neg hb]
      intro hx
      rcases List.mem_append.mp hx with hx' | hx'
      · exact hsp hx'
      · rcases List.mem_cons.mp hx' with hx'' | hx''
        · exact absurd hx''.symm (by decide)
        · exact hvalNoSpace kv hkv hb hx''
  unfold proj4_str_to_dict proj4_dict_to_str
  rw [show pstr "+" = ['+'] from rfl, pyReplace_single_filter, filter_intercalate,
    show ([' '].filter (fun x => !(x = '+'))) = [' '] from rfl, List.map_map]
  rw [show d.map ((List.filter (fun x => !(x = '+'))) ∘ proj4_dict_to_str_param fmtFloat) =
      d.map (fun kv => if kv.2 = PVal.pbool then kv.1 else kv.1 ++ '=' :: pvalFmt fmtFloat kv.2)
    from List.map_congr_left (fun kv hkv => htok kv hkv)]
  rw [List.splitOn_intercalate _ ' ' hnosp hnonnil, List.map_map]
  rw [show d.map ((pySplitFirst '=') ∘ (fun kv =>
      if kv.2 = PVal.pbool then kv.1 else kv.1 ++ '=' :: pvalFmt fmtFloat kv.2)) =
      d.map (fun kv => if kv.2 = PVal.pbool then [kv.1]
        else [kv.1, pvalFmt fmtFloat kv.2]) from
    List.map_congr_left (fun kv hkv => by
      obtain ⟨hne, hplus, heq, hsp⟩ := hkeys kv hkv
      by_cases hb : kv.2 = PVal.pbool
      · rw [Function.comp_apply, if_pos hb, if_pos hb]
        exact pySplitFirst_no '=' kv.1 heq
      · rw [Function.comp_apply, if_neg hb, if_neg hb]
        exact pySplitFirst_eq '=' kv.1 _ heq)]
  unfold convert_proj_floats
  rw [convert_foldl (fun kv => if kv.2 = PVal.pbool then [kv.1]
      else [kv.1, pvalFmt fmtFloat kv.2]) d [] ?_ (fun _ _ p hp => absurd hp (List.not_mem_nil p))
      hnd]
  · rfl
  · intro kv hkv dd
    dsimp only
    cases hv : kv.2 with
    | pbool =>
      rw [if_pos rfl]
      rfl
    | pnum q =>
      rw [if_neg (fun hx => PVal.noConfusion hx)]
      show dictInsert dd kv.1 (match pyFloat? (fmtFloat q) with
        | some q' => PVal.pnum q' | none => PVal.pstrv (fmtFloat q)) = _
      rw [(hnum kv hkv q hv).1]
    | pstrv s =>
      rw [if_neg (fun hx => PVal.noConfusion hx)]
      show dictInsert dd kv.1 (match pyFloat? s with
        | some q' => PVal.pnum q' | none => PVal.pstrv s) = _
      rw [(hstr kv hkv s hv).1]

/-- Counterexample for C6 as stated, exhibiting both failure modes of the
round trip.  (1) The well-formed one-token string `+south` (a flag outside
the `no_defs`/`no_off`/`no_rot` whitelist) renders as `+south=True`, whose
key/value pairs are `\x7bsouth: "True"\x7d`, not the original flag
`\x7bsouth: True\x7d`.  (2) The well-formed string `+no_defs=3` — which has
no flag-only token at all — parses to `\x7bno_defs: 3.0\x7d`, but
`proj4_dict_to_str` emits the whitelisted key `+no_defs` bare, dropping the
value, so the re-parse gives `\x7bno_defs: True\x7d`. -/
theorem claim_C6_cex :
    (proj4_str_to_dict (pstr "+south") = [(pstr "south", PVal.pbool)] ∧
    proj4_dict_to_str (fun _ => []) (proj4_str_to_dict (pstr "+south")) =
      pstr "+south=True" ∧
    proj4_str_to_dict (proj4_dict_to_str (fun _ => []) (proj4_str_to_dict (pstr "+south"))) =
      [(pstr "south", PVal.pstrv (pstr "True"))] ∧
    proj4_str_to_dict (proj4_dict_to_str (fun _ => []) (proj4_str_to_dict (pstr "+south"))) ≠
      proj4_str_to_dict (pstr "+south")) ∧
    (proj4_str_to_dict (pstr "+no_defs=3") = [(pstr "no_defs", PVal.pnum 3)] ∧
    proj4_dict_to_str (fun _ => []) (proj4_str_to_dict (pstr "+no_defs=3")) =
      pstr "+no_defs" ∧
    proj4_str_to_dict (proj4_dict_to_str (fun _ => [])
      (proj4_str_to_dict (pstr "+no_defs=3"))) = [(pstr "no_defs", PVal.pbool)] ∧
    proj4_str_to_dict (proj4_dict_to_str (fun _ => [])
      (proj4_str_to_dict (pstr "+no_defs=3"))) ≠
      proj4_str_to_dict (pstr "+no_defs=3")) := by
  refine ⟨⟨by decide, by decide, by decide, by decide⟩,
    by decide, by decide, by decide, by decide⟩

/-- Witness for C6 (amended) at the mapping parsed from
`+proj=stere +lat_0=90 +no_defs`. -/
theorem claim_C6_amended_witness :
    proj4_str_to_dict (proj4_dict_to_str (fun q => if q = 90 then pstr "90.0" else [])
      [(pstr "proj", .pstrv (pstr "stere")), (pstr "lat_0", .pnum 90),
        (pstr "no_defs", .pbool)]) =
      [(pstr "proj", .pstrv (pstr "stere")), (pstr "lat_0", .pnum 90),
        (pstr "no_defs", .pbool)] := by
  refine claim_C6_amended _ _ (by decide) (by decide) (by decide) (by decide) ?_ ?_
  · intro kv hkv q hq
    have hmem : kv = (pstr "proj", PVal.pstrv (pstr "stere")) ∨
        kv = (pstr "lat_0", PVal.pnum 90) ∨ kv = (pstr "no_defs", PVal.pbool) := by
      simpa using hkv
    rcases hmem with rfl | rfl | rfl
    · cases hq
    · have hq90 : (90 : ℚ) = q := by injection hq
      subst hq90
      refine ⟨by decide, by decide, by decide⟩
    · cases hq
  · intro kv hkv s hs
    have hmem : kv = (pstr "proj", PVal.pstrv (pstr "stere")) ∨
        kv = (pstr "lat_0", PVal.pnum 90) ∨ kv = (pstr "no_defs", PVal.pbool) := by
      simpa using hkv
    rcases hmem with rfl | rfl | rfl
    · have hsv : pstr "stere" = s := by injection hs
      subst hsv
      refine ⟨by decide, by decide, by decide⟩
    · cases hs
    · cases hs

/-- Witness for C10: a closed block followed by an unterminated one parses to
exactly the closed block's definition. -/
theorem claim_C10_unterminated_block_witness :
    _parse_legacy_area_file (fun i c => (i, c)) (pstr "f")
      ([pstr "REGION: foo \x7b", pstr "XSIZE: 10", pstr "\x7d;"] ++
        pstr "REGION: bar \x7b" :: [pstr "YSIZE: 7"]) [] =
      _parse_legacy_area_file (fun i c => (i, c)) (pstr "f")
        [pstr "REGION: foo \x7b", pstr "XSIZE: 10", pstr "\x7d;"] [] :=
  claim_C10_unterminated_block _ (fun i c => (i, c)) (pstr "f")
    [pstr "REGION: foo \x7b", pstr "XSIZE: 10", pstr "\x7d;"] (pstr "REGION: bar \x7b")
    [pstr "YSIZE: 7"] (by decide) (by decide) (by decide)

end PyreUtils
